import Mathlib

/-!
Shallow embedding of the crater-generate-report tool (src/main.rs).

The tool ingests an archive of crate build-regression logs, classifies each
regressed crate's end-toolchain log into a `SuspectedCause`, groups records
by cause, and renders a markdown report plus a side-channel crate list.

External collaborators (network fetches, JSON decoding, percent-encoding of
report URLs, the crates.io owners endpoint) are modelled as injected
functions, exactly as the specification scopes them out; everything with
decision logic (path/toolchain parsing, the duplicate-slot checks, the regex
scans, candidate resolution, bucket aggregation, policy gating, rendering)
is translated from the source.  Rust panics (`panic!`, `assert!`, `expect`,
`unwrap` on data this core owns) are modelled as `Except.error` / `none`.
-/

/-- Crate identity: `CrateId` from the source (registry package+version or
GitHub user+repository). -/
inductive CrateId where
  | CratesIo (package : String) (version : String)
  | GitHub (user : String) (repository : String)
  deriving DecidableEq

/-- `impl fmt::Display for CrateId`. -/
def CrateId.display : CrateId → String
  | CrateId.GitHub user repository => user ++ "/" ++ repository
  | CrateId.CratesIo package version => package ++ "-" ++ version

/-- The crate's own name as computed twice in the main loop (for the
side-channel crate list and for the test-failure candidates): the registry
package name, or the `user/repository` pair. -/
def CrateId.ownName : CrateId → String
  | CrateId.CratesIo package _ => package
  | CrateId.GitHub user repository => user ++ "/" ++ repository

/-- `ToolchainType` from the source. -/
inductive ToolchainType where
  | Start
  | End
  deriving DecidableEq

/-- `ToolchainSource` from the source (`ci` with sha/try flag, or `dist`). -/
inductive ToolchainSource where
  | Ci (sha : String) (try_ : Bool)
  | Dist (name : String)
  deriving DecidableEq

/-- `Toolchain` from the source. -/
structure Toolchain where
  source : ToolchainSource
  deriving DecidableEq

/-- `Config` from the source: experiment name and declared toolchains. -/
structure Config where
  name : String
  toolchains : List Toolchain
  deriving DecidableEq

/-- `Config::toolchain_name`: the label of the start (index 0) or end
(index 1) toolchain.  Rust indexes `self.toolchains[idx]`, which panics when
absent; that partiality is an `Option` here. -/
def Config.toolchainName (cfg : Config) (ty : ToolchainType) : Option String :=
  let idx := match ty with
    | ToolchainType.Start => 0
    | ToolchainType.End => 1
  (cfg.toolchains.get? idx).map fun t =>
    match t.source with
    | ToolchainSource.Ci sha try_ => (if try_ then "try" else "master") ++ "#" ++ sha
    | ToolchainSource.Dist name => name

/-- `Regression` from the source: one record per crate identity, with the
two optional log slots. -/
structure Regression where
  id : CrateId
  start_log : Option String
  end_log : Option String
  deriving DecidableEq

/-- `Regression::new`. -/
def Regression.new (id : CrateId) : Regression :=
  { id := id, start_log := none, end_log := none }

/-- `Regression::insert`: assign the log into the slot whose declared
toolchain label equals `toolchain`.  The source's `assert!` on an already
populated slot and its `panic!` on an unrecognized label are `Except.error`
(the error strings mirror the source messages, including the copy-pasted
"start" in the end-slot assertion). -/
def Regression.insert (r : Regression) (cfg : Config) (toolchain : String)
    (log : String) : Except String Regression :=
  match cfg.toolchainName ToolchainType.Start with
  | none => Except.error "no start toolchain declared"
  | some startName =>
    if startName = toolchain then
      if r.start_log.isSome then Except.error "replacing existing start log"
      else Except.ok { r with start_log := some log }
    else
      match cfg.toolchainName ToolchainType.End with
      | none => Except.error "no end toolchain declared"
      | some endName =>
        if endName = toolchain then
          if r.end_log.isSome then Except.error "replacing existing start log"
          else Except.ok { r with end_log := some log }
        else Except.error "unknown toolchain"

/-- The archive-path source-kind dispatch from the ingestion loop: component
"gh" builds a GitHub identity, "reg" a registry identity, anything else is
the source's `panic!("unexpected component")`. -/
def parseCrateId (sourceKind name versionOrRepo : String) : Except String CrateId :=
  if sourceKind = "gh" then Except.ok (CrateId.GitHub name versionOrRepo)
  else if sourceKind = "reg" then Except.ok (CrateId.CratesIo name versionOrRepo)
  else Except.error "unexpected component"

/-- `SuspectedCause` from the source (the `DocumentaionError` spelling is the
source's). -/
inductive SuspectedCause where
  | CompileError (crate_name : String)
  | DocumentaionError (crate_name : String)
  | TestFailure (crate_name : String)
  | DocTestFailure (crate_name : String)
  | Unknown
  deriving DecidableEq

/-- `SuspectedCause::crate_name`. -/
def SuspectedCause.crate_name : SuspectedCause → Option String
  | SuspectedCause.CompileError crate_name => some crate_name
  | SuspectedCause.DocumentaionError crate_name => some crate_name
  | SuspectedCause.TestFailure crate_name => some crate_name
  | SuspectedCause.DocTestFailure crate_name => some crate_name
  | SuspectedCause.Unknown => none

/-- `impl fmt::Display for SuspectedCause`. -/
def SuspectedCause.display : SuspectedCause → String
  | SuspectedCause.CompileError crate_name => crate_name
  | SuspectedCause.DocumentaionError crate_name => crate_name
  | SuspectedCause.TestFailure crate_name => crate_name
  | SuspectedCause.DocTestFailure crate_name => crate_name
  | SuspectedCause.Unknown => "unknown causes"

/-- The backquote character closing the crate-name capture groups. -/
def tick : Char := '`'

/-- Capture group of the two markers.  The compile pattern's group is
`[^)]+?` (any character except a closing parenthesis, lazily, so the first
backquote with a nonempty capture closes the match; a backquote may itself
be captured, hence `allowTick = true`); the document pattern's group is
`[^`)]+?`, which can never consume a backquote (`allowTick = false`).
Returns the captured characters and the remainder after the closing
backquote, or `none` when no match starts here. -/
def captureName (allowTick : Bool) : List Char → List Char → Option (List Char × List Char)
  | _, [] => none
  | acc, c :: rest =>
    if c = tick then
      if acc = [] then
        if allowTick then captureName allowTick [c] rest else none
      else some (acc.reverse, rest)
    else if c = ')' then none
    else captureName allowTick (c :: acc) rest

/-- Left-to-right scan for all non-overlapping matches of
`firsts-member ++ tailPat ++ capture`, as `Regex::captures_iter` performs:
at each position try to match; on success emit the capture and resume after
the match, otherwise advance one character.  `fuel` bounds the recursion and
is instantiated with the text length. -/
def scanLogAux (firsts : List Char) (tailPat : List Char) (allowTick : Bool) :
    Nat → List Char → List String
  | 0, _ => []
  | _ + 1, [] => []
  | fuel + 1, c :: rest =>
    if c ∈ firsts ∧ tailPat.isPrefixOf rest = true then
      match captureName allowTick [] (rest.drop tailPat.length) with
      | some (cap, rem) => String.mk cap :: scanLogAux firsts tailPat allowTick fuel rem
      | none => scanLogAux firsts tailPat allowTick fuel rest
    else scanLogAux firsts tailPat allowTick fuel rest

/-- All captures of the source's compile regex
`[Cc]ould not compile `([^)]+?)`` over a log text. -/
def compileCaptures (log : String) : List String :=
  scanLogAux ['C', 'c'] "ould not compile `".data true log.data.length log.data

/-- All captures of the source's documentation regex
`Could not document `([^`)]+?)`` over a log text. -/
def documentCaptures (log : String) : List String :=
  scanLogAux ['C'] "ould not document `".data false log.data.length log.data

/-- Substring test over character lists (Rust `str::contains` with a literal
pattern). -/
def strContainsAux (needle : List Char) : List Char → Bool
  | [] => needle.isEmpty
  | c :: rest => needle.isPrefixOf (c :: rest) || strContainsAux needle rest

/-- Rust `str::contains` for string literals. -/
def strContains (hay needle : String) : Bool :=
  strContainsAux needle.data hay.data

/-- The library-test-failure substring tested by the classifier. -/
def libTestMarker : String := "error: test failed, to rerun pass '--lib'"

/-- The doc-test-failure substring tested by the classifier. -/
def docTestMarker : String := "error: test failed, to rerun pass '--doc'"

/-- The candidate scan of the main loop, in source push order: compile-error
captures, then documentation-error captures, then the library-test and
doc-test substring checks, the latter two tagged with the regressed crate's
own name. -/
def candidates (id : CrateId) (endLog : String) : List SuspectedCause :=
  ((compileCaptures endLog).map fun n => SuspectedCause.CompileError n)
    ++ ((documentCaptures endLog).map fun n => SuspectedCause.DocumentaionError n)
    ++ (if strContains endLog libTestMarker then
          [SuspectedCause.TestFailure id.ownName] else [])
    ++ (if strContains endLog docTestMarker then
          [SuspectedCause.DocTestFailure id.ownName] else [])

/-- The resolution step: `if crates.len() == 1 { crates.pop().unwrap() }
else { Unknown }`. -/
def resolveCause : List SuspectedCause → SuspectedCause
  | [c] => c
  | _ => SuspectedCause.Unknown

/-- Classifier for one record's end-toolchain log. -/
def classify (id : CrateId) (endLog : String) : SuspectedCause :=
  resolveCause (candidates id endLog)

/-- `CcWho` from the source: the report-detail policy. -/
inductive CcWho where
  | All
  | Roots
  | None
  deriving DecidableEq

/-- `CcWho::causes`. -/
def CcWho.causes : CcWho → Bool
  | CcWho.All => true
  | CcWho.Roots => false
  | CcWho.None => false

/-- `CcWho::roots`. -/
def CcWho.roots : CcWho → Bool
  | CcWho.All => true
  | CcWho.Roots => true
  | CcWho.None => false

/-- The command-line dispatch of the second argument in `main`. -/
def parseCcWho : String → Option CcWho
  | "all" => some CcWho.All
  | "roots" => some CcWho.Roots
  | "none" => some CcWho.None
  | "print-list" => some CcWho.None
  | _ => none

/-- `format_owners_to_cc`. -/
def format_owners_to_cc (owners : List String) : String :=
  String.intercalate ", " (owners.map fun o => "@" ++ o)

/-- `CrateId::owners` with the crates.io owners endpoint injected as
`lookup` (`none` models a `Result::Err`): a registry identity consults the
service, a GitHub identity's owner is definitionally its user field. -/
def ownersOf (lookup : String → Option (List String)) : CrateId → Option (List String)
  | CrateId.CratesIo package _ => lookup package
  | CrateId.GitHub user _ => some [user]

/-- One row of the aggregated table: the source's six-field tuple
`(&CrateId, "start", start url, "end", end url, cc string)`. -/
structure Row where
  id : CrateId
  startLabel : String
  startUrl : String
  endLabel : String
  endUrl : String
  cc : String
  deriving DecidableEq

/-- The row pushed for one regression.  `urls` stands for
`Regression::log_url` (URL formatting and percent-encoding are external).
The source's `.owners().expect(...)` aborts the run on a lookup failure,
hence the `Option`. -/
def buildRow (lookup : String → Option (List String))
    (urls : CrateId → ToolchainType → String) (r : Regression) : Option Row :=
  (ownersOf lookup r.id).map fun owners =>
    { id := r.id
      startLabel := "start"
      startUrl := urls r.id ToolchainType.Start
      endLabel := "end"
      endUrl := urls r.id ToolchainType.End
      cc := format_owners_to_cc owners }

/-- The cause resolved for one record.  The source reads the end log with
`Regression::log(End)`, whose `unwrap` on a missing slot is the `none`
case. -/
def classifyRecord (r : Regression) : Option SuspectedCause :=
  r.end_log.map fun endLog => classify r.id endLog

/-- `rows.entry(cause).or_insert_with(Vec::new).push(row)` on an association
list: append to the existing bucket, or add a new bucket. -/
def addRow : List (SuspectedCause × List Row) → SuspectedCause → Row →
    List (SuspectedCause × List Row)
  | [], cause, row => [(cause, [row])]
  | (c, rs) :: rest, cause, row =>
    if cause = c then (c, rs ++ [row]) :: rest
    else (c, rs) :: addRow rest cause row

/-- The aggregation loop of `main` over the record store's values: classify
each record and push its row into the bucket of its resolved cause (the
`Unknown` bucket when the candidate count is not one).  `none` models the
panics of the loop body (missing end log, failed per-crate owner lookup). -/
def buildRowsAux (lookup : String → Option (List String))
    (urls : CrateId → ToolchainType → String) :
    List (SuspectedCause × List Row) → List Regression →
    Option (List (SuspectedCause × List Row))
  | acc, [] => some acc
  | acc, r :: records =>
    match classifyRecord r with
    | none => none
    | some cause =>
      match buildRow lookup urls r with
      | none => none
      | some row => buildRowsAux lookup urls (addRow acc cause row) records

/-- The full aggregation pass. -/
def buildRows (lookup : String → Option (List String))
    (urls : CrateId → ToolchainType → String) (records : List Regression) :
    Option (List (SuspectedCause × List Row)) :=
  buildRowsAux lookup urls [] records

/-- The side-channel crate list as accumulated by the loop: one
`writeln!(crate_list, "{}", name)` per record. -/
def crateListRaw (records : List Regression) : String :=
  records.foldl (fun acc r => acc ++ r.id.ownName ++ "\n") ""

/-- The emitted crate list: `crate_list.trim_end_matches(",")`, i.e. all
trailing comma characters removed before the write. -/
def crateListOutput (records : List Regression) : String :=
  String.mk (((crateListRaw records).data.reverse.dropWhile (fun c => c = ',')).reverse)

/-- The maintainer portion of a single-crate bucket's line, gated by the
roots flag. -/
def rootCc (ccTy : CcWho) (row : Row) : String :=
  if ccTy.roots then "; cc " ++ row.cc else ""

/-- A single-crate bucket's line:
`" * root: {}: [{}]({}) v. [{}]({}){}"` plus the newline of `writeln!`. -/
def rootLine (ccTy : CcWho) (row : Row) : String :=
  " * root: " ++ row.id.display ++ ": [" ++ row.startLabel ++ "](" ++ row.startUrl
    ++ ") v. [" ++ row.endLabel ++ "](" ++ row.endUrl ++ ")" ++ rootCc ccTy row ++ "\n"

/-- The maintainer portion of a multi-crate bucket's header: under the roots
flag, look up the cause's own crate name (`crate_name().and_then(|n|
owners_for_crate_name(&n).ok())`), rendering "no owner?" when the cause has
no name or the lookup fails. -/
def headerSuffix (ccTy : CcWho) (lookup : String → Option (List String))
    (cause : SuspectedCause) : String :=
  if ccTy.roots then
    match cause.crate_name.bind lookup with
    | some v => "; cc " ++ format_owners_to_cc v
    | none => "no owner?"
  else ""

/-- A multi-crate bucket's header line:
`"\nroot: {} - {} detected crates which regressed due to this{}"` plus the
newline of `writeln!`. -/
def headerLine (ccTy : CcWho) (lookup : String → Option (List String))
    (cause : SuspectedCause) (count : Nat) : String :=
  "\nroot: " ++ cause.display ++ " - " ++ toString count
    ++ " detected crates which regressed due to this"
    ++ headerSuffix ccTy lookup cause ++ "\n"

/-- The author text of a per-crate detail line: bare for the `Unknown`
bucket, wrapped in backquotes for a named cause. -/
def detailAuthor (cause : SuspectedCause) (ccField : String) : String :=
  if cause = SuspectedCause.Unknown then ccField
  else "`" ++ ccField ++ "`"

/-- The maintainer portion of a per-crate detail line, gated by the causes
flag. -/
def detailSuffix (ccTy : CcWho) (cause : SuspectedCause) (ccField : String) : String :=
  if ccTy.causes then "; cc " ++ detailAuthor cause ccField else ""

/-- A per-crate detail line inside a multi-crate bucket:
`" * {}: [{}]({}) v. [{}]({}){}"` plus the newline of `writeln!`. -/
def detailLine (ccTy : CcWho) (cause : SuspectedCause) (row : Row) : String :=
  " * " ++ row.id.display ++ ": [" ++ row.startLabel ++ "](" ++ row.startUrl
    ++ ") v. [" ++ row.endLabel ++ "](" ++ row.endUrl ++ ")"
    ++ detailSuffix ccTy cause row.cc ++ "\n"

/-- Rendering of one bucket: a bucket with exactly one row renders as a root
line from `affected[0]`; any other bucket renders the header, the
`<details>` block of per-crate lines, and the closing tag (each `writeln!`
contributing its newline). -/
def renderBucket (ccTy : CcWho) (lookup : String → Option (List String))
    (cause : SuspectedCause) (affected : List Row) : String :=
  match affected with
  | [row] => rootLine ccTy row
  | rows =>
    headerLine ccTy lookup cause rows.length ++ "<details>\n\n"
      ++ String.join (rows.map fun row => detailLine ccTy cause row)
      ++ "\n</details>\n\n"

/-- The full report: every bucket rendered in table order. -/
def renderTable (ccTy : CcWho) (lookup : String → Option (List String))
    (rows : List (SuspectedCause × List Row)) : String :=
  String.join (rows.map fun p => renderBucket ccTy lookup p.1 p.2)

/-- An always-failing maintainer lookup (service unreachable). -/
def lookupNone : String → Option (List String) := fun _ => none

/-- A maintainer lookup answering `["x"]` for every name. -/
def lookupX : String → Option (List String) := fun _ => some ["x"]

/-- A constant stand-in for `Regression::log_url`. -/
def urlsConst : CrateId → ToolchainType → String := fun _ _ => "u"

/-- A concrete table row for a registry crate. -/
def rowA : Row :=
  { id := CrateId.CratesIo "a" "1", startLabel := "start", startUrl := "su",
    endLabel := "end", endUrl := "eu", cc := "@x" }

/-- A concrete table row for a GitHub crate. -/
def rowB : Row :=
  { id := CrateId.GitHub "o" "w", startLabel := "start", startUrl := "su",
    endLabel := "end", endUrl := "eu", cc := "@o" }

/-- A concrete GitHub regression record with both logs present. -/
def regGH : Regression :=
  { id := CrateId.GitHub "o" "w", start_log := some "", end_log := some "" }

/-- The row the aggregation loop pushes for `regGH` under `lookupX` and
`urlsConst`. -/
def rowGH : Row :=
  { id := CrateId.GitHub "o" "w", startLabel := "start", startUrl := "u",
    endLabel := "end", endUrl := "u", cc := "@o" }

/-- A concrete two-toolchain run configuration with dist labels "s" and
"e". -/
def cfgSE : Config :=
  { name := "exp",
    toolchains := [{ source := ToolchainSource.Dist "s" },
                   { source := ToolchainSource.Dist "e" }] }

/-- A concrete record with both log slots already populated. -/
def regFull : Regression :=
  { id := CrateId.CratesIo "a" "1", start_log := some "L", end_log := some "M" }

/-- Helper: a string with a nonempty prefix appended is nonempty. -/
theorem prefix_append_ne_empty (p s : String) (hp : p.length ≠ 0) : p ++ s ≠ "" := by
  intro h
  have hlen := congrArg String.length h
  rw [String.length_append] at hlen
  have : p.length = 0 := by
    have h0 : ("" : String).length = 0 := rfl
    omega
  exact hp this

/-- C1: the classifier resolves exactly one cause per end-toolchain log: the
single candidate when the candidate scan produced exactly one, and `Unknown`
when it produced zero or more than one, with no tie-breaking. -/
theorem c1_resolution (id : CrateId) (endLog : String) :
    (∀ c, candidates id endLog = [c] → classify id endLog = c)
    ∧ ((candidates id endLog).length ≠ 1 →
        classify id endLog = SuspectedCause.Unknown) := by
  constructor
  · intro c h
    simp [classify, h, resolveCause]
  · intro h
    unfold classify resolveCause
    split
    · rename_i c heq
      exact absurd (by rw [heq]; rfl) h
    · rfl

/-- Witness for C1: a log with exactly one compile marker resolves to that
candidate; a log with both a compile marker and the library-test substring
resolves to `Unknown`. -/
theorem c1_resolution_witness :
    classify (CrateId.CratesIo "alpha" "1.0") "error: could not compile `libfoo`"
      = SuspectedCause.CompileError "libfoo"
    ∧ classify (CrateId.CratesIo "alpha" "1.0")
        "could not compile `libfoo` error: test failed, to rerun pass '--lib'"
      = SuspectedCause.Unknown :=
  ⟨(c1_resolution (CrateId.CratesIo "alpha" "1.0") _).1 _ (by rfl),
   (c1_resolution (CrateId.CratesIo "alpha" "1.0") _).2 (by decide)⟩

/-- C3: every malformed ingestion input is fatal: writing an already
populated start or end slot, a toolchain label matching neither declared
name, and a source-kind path segment that is neither "gh" nor "reg" all
produce the corresponding error. -/
theorem c3_malformed_input_fatal (r : Regression) (cfg : Config)
    (tc1 tc2 tc3 log sourceKind nm vor sn en : String)
    (hsn : cfg.toolchainName ToolchainType.Start = some sn)
    (hen : cfg.toolchainName ToolchainType.End = some en)
    (h1 : tc1 = sn) (h1s : r.start_log.isSome = true)
    (h2 : tc2 = en) (h2s : tc2 ≠ sn) (h2e : r.end_log.isSome = true)
    (h3s : tc3 ≠ sn) (h3e : tc3 ≠ en)
    (hk1 : sourceKind ≠ "gh") (hk2 : sourceKind ≠ "reg") :
    r.insert cfg tc1 log = Except.error "replacing existing start log"
    ∧ r.insert cfg tc2 log = Except.error "replacing existing start log"
    ∧ r.insert cfg tc3 log = Except.error "unknown toolchain"
    ∧ parseCrateId sourceKind nm vor = Except.error "unexpected component" := by
  refine ⟨?_, ?_, ?_, ?_⟩
  · subst h1
    simp [Regression.insert, hsn, h1s]
  · subst h2
    simp [Regression.insert, hsn, hen, Ne.symm h2s, h2e]
  · simp [Regression.insert, hsn, hen, Ne.symm h3s, Ne.symm h3e]
  · simp [parseCrateId, hk1, hk2]

/-- Witness for C3: concrete duplicate-slot inserts, an unknown toolchain
label, and an unrecognized source-kind segment all fail. -/
theorem c3_malformed_input_fatal_witness :
    regFull.insert cfgSE "s" "N" = Except.error "replacing existing start log"
    ∧ regFull.insert cfgSE "e" "N" = Except.error "replacing existing start log"
    ∧ regFull.insert cfgSE "z" "N" = Except.error "unknown toolchain"
    ∧ parseCrateId "zip" "a" "1" = Except.error "unexpected component" :=
  c3_malformed_input_fatal regFull cfgSE "s" "e" "z" "N" "zip" "a" "1" "s" "e"
    rfl rfl rfl rfl rfl (by decide) rfl (by decide) (by decide) (by decide) (by decide)

/-- C6: the detail policy gates maintainer mentions three ways: a
single-crate line's mention and a multi-crate header's mention appear iff the
policy is `All` or `Roots`, a per-crate detail line's mention appears iff the
policy is `All`, and the `print-list` command-line alias parses identically
to `none`. -/
theorem c6_policy_gating (cc : CcWho) (row : Row)
    (lookup : String → Option (List String)) (cause : SuspectedCause)
    (nm s : String) (handles : List String)
    (hn : cause.crate_name = some nm) (ho : lookup nm = some handles) :
    (rootCc cc row ≠ "" ↔ (cc = CcWho.All ∨ cc = CcWho.Roots))
    ∧ headerSuffix cc lookup cause =
        (if cc = CcWho.All ∨ cc = CcWho.Roots
         then "; cc " ++ format_owners_to_cc handles else "")
    ∧ (detailSuffix cc cause s ≠ "" ↔ cc = CcWho.All)
    ∧ parseCcWho "print-list" = some CcWho.None
    ∧ parseCcWho "print-list" = parseCcWho "none" := by
  refine ⟨?_, ?_, ?_, rfl, rfl⟩
  · cases cc <;>
      simp [rootCc, CcWho.roots, prefix_append_ne_empty "; cc " row.cc (by decide)]
  · cases cc <;>
      simp [headerSuffix, CcWho.roots, hn, ho, Option.bind]
  · cases cc <;>
      simp [detailSuffix, CcWho.causes,
        prefix_append_ne_empty "; cc " (detailAuthor cause s) (by decide)]

/-- Witness for C6 at the `Roots` policy with a successful lookup. -/
theorem c6_policy_gating_witness :
    (rootCc CcWho.Roots rowA ≠ "" ↔ (CcWho.Roots = CcWho.All ∨ CcWho.Roots = CcWho.Roots))
    ∧ headerSuffix CcWho.Roots lookupX (SuspectedCause.CompileError "dep") =
        (if CcWho.Roots = CcWho.All ∨ CcWho.Roots = CcWho.Roots
         then "; cc " ++ format_owners_to_cc ["x"] else "")
    ∧ (detailSuffix CcWho.Roots (SuspectedCause.CompileError "dep") "@x" ≠ ""
        ↔ CcWho.Roots = CcWho.All)
    ∧ parseCcWho "print-list" = some CcWho.None
    ∧ parseCcWho "print-list" = parseCcWho "none" :=
  c6_policy_gating CcWho.Roots rowA lookupX (SuspectedCause.CompileError "dep")
    "dep" "@x" ["x"] rfl rfl

/-- C8: the library-test (resp. doc-test) substring appends a `TestFailure`
(resp. `DocTestFailure`) candidate named after the regressed crate's own
name — the registry package name or the `user/repository` pair — and those
constructors enter the candidate list from nowhere else, never with a name
extracted from the log text. -/
theorem c8_test_failure_own_name (id : CrateId) (endLog : String) :
    (strContains endLog libTestMarker = true →
        SuspectedCause.TestFailure id.ownName ∈ candidates id endLog)
    ∧ (∀ n, SuspectedCause.TestFailure n ∈ candidates id endLog →
        n = id.ownName ∧ strContains endLog libTestMarker = true)
    ∧ (strContains endLog docTestMarker = true →
        SuspectedCause.DocTestFailure id.ownName ∈ candidates id endLog)
    ∧ (∀ n, SuspectedCause.DocTestFailure n ∈ candidates id endLog →
        n = id.ownName ∧ strContains endLog docTestMarker = true) := by
  unfold candidates
  by_cases hlib : strContains endLog libTestMarker <;>
    by_cases hdoc : strContains endLog docTestMarker <;>
      simp [hlib, hdoc, List.mem_append, List.mem_map]

/-- Witness for C8: a source-repo crate whose end log is exactly the
library-test substring yields a `TestFailure` candidate named
"octo/widget". -/
theorem c8_test_failure_own_name_witness :
    SuspectedCause.TestFailure (CrateId.GitHub "octo" "widget").ownName
      ∈ candidates (CrateId.GitHub "octo" "widget")
          "error: test failed, to rerun pass '--lib'" :=
  (c8_test_failure_own_name (CrateId.GitHub "octo" "widget") _).1 (by rfl)

/-- C10: in a multi-crate bucket the per-crate maintainer text is wrapped in
backquotes for every named cause, and left bare for the `Unknown` bucket;
under the `All` policy the detail-line suffix shows exactly that text. -/
theorem c10_backquote_wrapping (cause : SuspectedCause) (s : String)
    (h : cause ≠ SuspectedCause.Unknown) :
    detailAuthor cause s = "`" ++ s ++ "`"
    ∧ detailAuthor SuspectedCause.Unknown s = s
    ∧ detailSuffix CcWho.All cause s = "; cc " ++ ("`" ++ s ++ "`")
    ∧ detailSuffix CcWho.All SuspectedCause.Unknown s = "; cc " ++ s := by
  simp [detailAuthor, detailSuffix, CcWho.causes, h]

/-- Witness for C10 at a named cause and a concrete mention string. -/
theorem c10_backquote_wrapping_witness :
    detailAuthor (SuspectedCause.CompileError "dep") "@alice" = "`" ++ "@alice" ++ "`"
    ∧ detailAuthor SuspectedCause.Unknown "@alice" = "@alice"
    ∧ detailSuffix CcWho.All (SuspectedCause.CompileError "dep") "@alice"
        = "; cc " ++ ("`" ++ "@alice" ++ "`")
    ∧ detailSuffix CcWho.All SuspectedCause.Unknown "@alice" = "; cc " ++ "@alice" :=
  c10_backquote_wrapping (SuspectedCause.CompileError "dep") "@alice" (by decide)

/-- C2 counterexample: a failing per-crate maintainer lookup during the
aggregation loop aborts the run (the source's `.owners().expect(...)`,
modelled as `none`), contradicting "never aborts the run". -/
theorem c2_lookup_counterexample :
    buildRows lookupNone urlsConst
      [{ id := CrateId.CratesIo "p" "1", start_log := some "", end_log := some "" }]
      = none := rfl

/-- C2 as amended: only the cause-level lookup of a multi-crate bucket
header is recovered locally (rendered "no owner?" on failure, an empty
mention list on zero handles); the per-crate lookup made while building the
table rows is not recovered — its failure aborts the run. -/
theorem c2_lookup_recovery (lookup : String → Option (List String)) (cc : CcWho)
    (cause : SuspectedCause) (nm pkg ver elog : String) (slog : Option String)
    (urls : CrateId → ToolchainType → String)
    (hn : cause.crate_name = some nm) (hfail : lookup nm = none)
    (hpkg : lookup pkg = none) :
    headerSuffix cc lookup cause = (if cc.roots = true then "no owner?" else "")
    ∧ format_owners_to_cc [] = ""
    ∧ buildRows lookup urls
        [{ id := CrateId.CratesIo pkg ver, start_log := slog, end_log := some elog }]
      = none := by
  refine ⟨?_, rfl, ?_⟩
  · unfold headerSuffix
    cases cc.roots <;> simp [hn, hfail, Option.bind]
  · simp [buildRows, buildRowsAux, classifyRecord, buildRow, ownersOf, hpkg]

/-- Witness for C2 as amended, at an always-failing lookup service. -/
theorem c2_lookup_recovery_witness :
    headerSuffix CcWho.Roots lookupNone (SuspectedCause.CompileError "dep")
      = (if CcWho.Roots.roots = true then "no owner?" else "")
    ∧ format_owners_to_cc [] = ""
    ∧ buildRows lookupNone urlsConst
        [{ id := CrateId.CratesIo "p" "1", start_log := some "L", end_log := some "" }]
      = none :=
  c2_lookup_recovery lookupNone CcWho.Roots (SuspectedCause.CompileError "dep")
    "dep" "p" "1" "" (some "L") urlsConst rfl rfl rfl

/-- C5 counterexample: an `Unknown` bucket holding exactly one identity does
not render a header at all — it renders as a root line, and under the
`Roots` policy that line carries a maintainer mention even though the
"Causes" flag is inactive, contradicting "regardless of how many identities
the Unknown bucket holds". -/
theorem c5_unknown_counterexample :
    renderBucket CcWho.Roots lookupNone SuspectedCause.Unknown [rowA]
      = " * root: a-1: [start](su) v. [end](eu); cc @x\n"
    ∧ CcWho.Roots.causes = false
    ∧ CcWho.Roots ≠ CcWho.All :=
  ⟨rfl, rfl, by decide⟩

/-- C5 as amended: for an `Unknown` bucket holding at least two identities,
rendering is independent of the maintainer-lookup service (no cause-level
lookup is ever attempted), the cause carries no crate name and displays the
fixed text "unknown causes", the header suffix is "no owner?" under the
roots flag and empty otherwise, and a per-crate line carries a maintainer
mention iff the policy is `All`. -/
theorem c5_unknown_bucket (cc : CcWho) (lookup lookup' : String → Option (List String))
    (affected : List Row) (s : String) (h : 2 ≤ affected.length) :
    renderBucket cc lookup SuspectedCause.Unknown affected
      = renderBucket cc lookup' SuspectedCause.Unknown affected
    ∧ SuspectedCause.Unknown.crate_name = none
    ∧ SuspectedCause.Unknown.display = "unknown causes"
    ∧ headerSuffix cc lookup SuspectedCause.Unknown
        = (if cc.roots = true then "no owner?" else "")
    ∧ (detailSuffix cc SuspectedCause.Unknown s ≠ "" ↔ cc = CcWho.All) := by
  have hhs : ∀ lk : String → Option (List String),
      headerSuffix cc lk SuspectedCause.Unknown
        = (if cc.roots = true then "no owner?" else "") := by
    intro lk
    unfold headerSuffix
    cases cc.roots <;> simp [SuspectedCause.crate_name, Option.bind]
  refine ⟨?_, rfl, rfl, hhs lookup, ?_⟩
  · rcases affected with _ | ⟨a, t⟩
    · exact absurd h (by simp)
    rcases t with _ | ⟨b, t⟩
    · exact absurd h (by simp)
    · simp [renderBucket, headerLine, hhs lookup, hhs lookup']
  · cases cc <;>
      simp [detailSuffix, CcWho.causes,
        prefix_append_ne_empty "; cc " (detailAuthor SuspectedCause.Unknown s) (by decide)]

/-- Witness for C5 as amended, over a two-row `Unknown` bucket and two
different lookup services. -/
theorem c5_unknown_bucket_witness :
    renderBucket CcWho.All lookupX SuspectedCause.Unknown [rowA, rowB]
      = renderBucket CcWho.All lookupNone SuspectedCause.Unknown [rowA, rowB]
    ∧ SuspectedCause.Unknown.crate_name = none
    ∧ SuspectedCause.Unknown.display = "unknown causes"
    ∧ headerSuffix CcWho.All lookupX SuspectedCause.Unknown
        = (if CcWho.All.roots = true then "no owner?" else "")
    ∧ (detailSuffix CcWho.All SuspectedCause.Unknown "@x" ≠ "" ↔ CcWho.All = CcWho.All) :=
  c5_unknown_bucket CcWho.All lookupX lookupNone [rowA, rowB] "@x" (by decide)

/-- Helper: the crate-list accumulator appends one `name ++ newline` line
per record. -/
theorem crateListRaw_data (records : List Regression) (acc : String) :
    (records.foldl (fun a r => a ++ r.id.ownName ++ "\n") acc).data
      = acc.data ++ (records.map fun r => r.id.ownName.data ++ ['\n']).flatten := by
  induction records generalizing acc with
  | nil => simp
  | cons r rs ih =>
    rw [List.foldl_cons, ih]
    simp [String.data_append, show ("\n" : String).data = ['\n'] from rfl]

/-- Helper: a concatenation of newline-terminated lines is empty or ends in
the newline. -/
theorem lines_reverse {α : Type} (f : α → List Char) (l : List α) :
    ((l.map fun x => f x ++ ['\n']).flatten).reverse = []
    ∨ ∃ t, ((l.map fun x => f x ++ ['\n']).flatten).reverse = '\n' :: t := by
  induction l with
  | nil => exact Or.inl rfl
  | cons x xs ih =>
    right
    simp only [List.map_cons, List.flatten_cons, List.reverse_append]
    rcases ih with hflat | ⟨t, hflat⟩
    · rw [hflat]
      exact ⟨(f x).reverse, by simp⟩
    · rw [hflat]
      exact ⟨t ++ ('\n' :: (f x).reverse), by simp⟩

/-- C9 as amended: the emitted side-channel list is exactly one line per
ingested record, each line the crate's name (the registry package name, or
the `user/repository` pair) followed by the newline separator; the final
trim removes only comma characters, so the text ends with the separator
untouched. -/
theorem c9_crate_list (records : List Regression) :
    (crateListOutput records).data
      = (records.map fun r => r.id.ownName.data ++ ['\n']).flatten := by
  have hraw : (crateListRaw records).data
      = (records.map fun r => r.id.ownName.data ++ ['\n']).flatten := by
    rw [crateListRaw, crateListRaw_data records ""]
    rfl
  show ((crateListRaw records).data.reverse.dropWhile (fun c => c = ',')).reverse
      = (records.map fun r => r.id.ownName.data ++ ['\n']).flatten
  rw [hraw]
  rcases lines_reverse (fun r : Regression => r.id.ownName.data) records with hl | ⟨t, hl⟩
  · rw [hl]
    have : (records.map fun r => r.id.ownName.data ++ ['\n']).flatten = [] :=
      List.reverse_eq_nil_iff.mp hl
    rw [this]
    rfl
  · rw [hl]
    have : List.dropWhile (fun c => c = ',') ('\n' :: t) = '\n' :: t := by
      rw [List.dropWhile_cons_of_neg (by decide)]
    rw [this, ← hl, List.reverse_reverse]

/-- C9 counterexample: for one registry crate `a-1` the emitted list is
"a" followed by the untrimmed newline separator, and the identity's version
does not appear in the text at all. -/
theorem c9_crate_list_counterexample :
    crateListOutput [regFull] = "a\n"
    ∧ crateListOutput [regFull] ≠ "a"
    ∧ strContains (crateListOutput [regFull]) "1" = false :=
  ⟨rfl, by decide, rfl⟩

/-- Helper: a clean nonempty capture (no backquote, no closing parenthesis)
terminated by the closing backquote succeeds and consumes through that
backquote. -/
theorem captureName_clean (allowTick : Bool) (name : List Char) :
    ∀ (rest acc : List Char), (∀ c ∈ name, c ≠ tick ∧ c ≠ ')') →
      (acc ≠ [] ∨ name ≠ []) →
      captureName allowTick acc (name ++ tick :: rest)
        = some (acc.reverse ++ name, rest) := by
  induction name with
  | nil =>
    intro rest acc _ hne
    have hacc : acc ≠ [] := by
      rcases hne with h | h
      · exact h
      · exact absurd rfl h
    simp [captureName, hacc]
  | cons c cs ih =>
    intro rest acc hclean _
    have hc := hclean c (by simp)
    simp only [List.cons_append, captureName]
    rw [if_neg hc.1, if_neg hc.2]
    show captureName allowTick (c :: acc) (cs ++ tick :: rest) = _
    rw [ih rest (c :: acc) (fun x hx => hclean x (by simp [hx])) (Or.inl (by simp))]
    simp

/-- Helper: a successful capture strictly shrinks the text. -/
theorem captureName_rem_length (allowTick : Bool) (l : List Char) :
    ∀ (acc cap rem : List Char),
      captureName allowTick acc l = some (cap, rem) → rem.length < l.length := by
  induction l with
  | nil =>
    intro acc cap rem h
    simp [captureName] at h
  | cons c cs ih =>
    intro acc cap rem h
    simp only [captureName] at h
    by_cases hc : c = tick
    · rw [if_pos hc] at h
      by_cases ha : acc = []
      · rw [if_pos ha] at h
        by_cases hat : allowTick = true
        · rw [if_pos hat] at h
          have := ih _ _ _ h
          simp only [List.length_cons]
          omega
        · rw [if_neg hat] at h
          exact absurd h (by simp)
      · rw [if_neg ha] at h
        simp only [Option.some.injEq, Prod.mk.injEq] at h
        rw [← h.2]
        simp
    · rw [if_neg hc] at h
      by_cases hp : c = ')'
      · rw [if_pos hp] at h
        exact absurd h (by simp)
      · rw [if_neg hp] at h
        have := ih _ _ _ h
        simp only [List.length_cons]
        omega

/-- Helper: the scan result does not depend on the fuel, as long as the fuel
covers the text length. -/
theorem scanLogAux_fuel (firsts tailPat : List Char) (allowTick : Bool) :
    ∀ (f1 f2 : Nat) (s : List Char), s.length ≤ f1 → s.length ≤ f2 →
      scanLogAux firsts tailPat allowTick f1 s
        = scanLogAux firsts tailPat allowTick f2 s := by
  intro f1
  induction f1 with
  | zero =>
    intro f2 s h1 h2
    have hs : s = [] := List.length_eq_zero.mp (Nat.le_zero.mp h1)
    subst hs
    cases f2 <;> rfl
  | succ g1 ih =>
    intro f2 s h1 h2
    cases s with
    | nil => cases f2 <;> rfl
    | cons c rest =>
      cases f2 with
      | zero => exact absurd h2 (by simp)
      | succ g2 =>
        simp only [List.length_cons] at h1 h2
        by_cases hg : c ∈ firsts ∧ tailPat.isPrefixOf rest = true
        · simp only [scanLogAux, if_pos hg]
          rcases hcap : captureName allowTick [] (rest.drop tailPat.length)
            with _ | ⟨cap, rem⟩
          · exact ih g2 rest (by omega) (by omega)
          · have hlen := captureName_rem_length allowTick
              (rest.drop tailPat.length) [] cap rem hcap
            have hdrop : (rest.drop tailPat.length).length ≤ rest.length := by
              rw [List.length_drop]
              omega
            show String.mk cap :: scanLogAux firsts tailPat allowTick g1 rem
                = String.mk cap :: scanLogAux firsts tailPat allowTick g2 rem
            rw [ih g2 rem (by omega) (by omega)]
        · simp only [scanLogAux, if_neg hg]
          exact ih g2 rest (by omega) (by omega)

/-- Helper: scanning a text that begins with a complete marker match emits
the captured name and resumes after the closing backquote. -/
theorem scanLogAux_head (firsts tailPat : List Char) (allowTick : Bool)
    (c0 : Char) (name rest : List Char)
    (hc : c0 ∈ firsts) (hname : name ≠ [])
    (hclean : ∀ c ∈ name, c ≠ tick ∧ c ≠ ')') :
    scanLogAux firsts tailPat allowTick
        (c0 :: (tailPat ++ (name ++ tick :: rest))).length
        (c0 :: (tailPat ++ (name ++ tick :: rest)))
      = String.mk name
          :: scanLogAux firsts tailPat allowTick rest.length rest := by
  simp only [List.length_cons, scanLogAux]
  rw [if_pos ⟨hc, by simp [List.isPrefixOf_iff_prefix]⟩]
  rw [List.drop_left]
  rw [captureName_clean allowTick name rest [] hclean (Or.inr hname)]
  simp only [List.reverse_nil, List.nil_append]
  rw [scanLogAux_fuel firsts tailPat allowTick
    (tailPat ++ (name ++ tick :: rest)).length rest.length rest
    (by simp [List.length_append]; omega) (Nat.le_refl _)]

/-- Helper: the compile-marker scan at the head of the text, for either
initial-letter case. -/
theorem compileCaptures_head (c0 : Char) (name rest : List Char)
    (hc : c0 = 'C' ∨ c0 = 'c') (hname : name ≠ [])
    (hclean : ∀ c ∈ name, c ≠ tick ∧ c ≠ ')') :
    compileCaptures (String.mk (c0 :: ("ould not compile `".data ++ (name ++ tick :: rest))))
      = String.mk name :: compileCaptures (String.mk rest) := by
  unfold compileCaptures
  exact scanLogAux_head ['C', 'c'] "ould not compile `".data true c0 name rest
    (by rcases hc with h | h <;> simp [h]) hname hclean

/-- Helper: the document-marker scan at the head of the text (exact case
only). -/
theorem documentCaptures_head (name rest : List Char)
    (hname : name ≠ [])
    (hclean : ∀ c ∈ name, c ≠ tick ∧ c ≠ ')') :
    documentCaptures (String.mk ('C' :: ("ould not document `".data ++ (name ++ tick :: rest))))
      = String.mk name :: documentCaptures (String.mk rest) := by
  unfold documentCaptures
  exact scanLogAux_head ['C'] "ould not document `".data false 'C' name rest
    (by simp) hname hclean

/-- C7 counterexample: the compile-marker scan is not case-insensitive — the
all-caps marker yields no candidate, while either initial-letter case of the
otherwise lowercase marker does; the document scan accepts the exact case
only. -/
theorem c7_case_counterexample :
    compileCaptures "could not compile `x`" = ["x"]
    ∧ compileCaptures "Could not compile `x`" = ["x"]
    ∧ compileCaptures "cOuld not compile `x`" = []
    ∧ compileCaptures "COULD NOT COMPILE `x`" = []
    ∧ documentCaptures "Could not document `x`" = ["x"]
    ∧ documentCaptures "could not document `x`" = [] :=
  ⟨rfl, rfl, rfl, rfl, rfl, rfl⟩

/-- C7 as amended: the compile-marker scan is case-insensitive in its
initial letter only — a text headed by 'C' or 'c' followed by the exact
lowercase remainder of the marker matches, emits the captured crate name,
and resumes after the match (non-overlapping); the document-marker scan
requires the exact "Could not document" case, all-caps compile markers and
lowercase document markers match nothing. -/
theorem c7_marker_scan (c0 : Char) (name rest : List Char)
    (hc : c0 = 'C' ∨ c0 = 'c') (hname : name ≠ [])
    (hclean : ∀ c ∈ name, c ≠ tick ∧ c ≠ ')') :
    compileCaptures (String.mk (c0 :: ("ould not compile `".data ++ (name ++ tick :: rest))))
      = String.mk name :: compileCaptures (String.mk rest)
    ∧ documentCaptures (String.mk ('C' :: ("ould not document `".data ++ (name ++ tick :: rest))))
      = String.mk name :: documentCaptures (String.mk rest)
    ∧ compileCaptures "COULD NOT COMPILE `x`" = []
    ∧ documentCaptures "could not document `x`" = [] :=
  ⟨compileCaptures_head c0 name rest hc hname hclean,
   documentCaptures_head name rest hname hclean, rfl, rfl⟩

/-- Witness for C7 as amended, at the lowercase initial letter and the
one-character crate name "x". -/
theorem c7_marker_scan_witness :
    compileCaptures (String.mk ('c' :: ("ould not compile `".data ++ (['x'] ++ tick :: []))))
      = String.mk ['x'] :: compileCaptures (String.mk [])
    ∧ documentCaptures (String.mk ('C' :: ("ould not document `".data ++ (['x'] ++ tick :: []))))
      = String.mk ['x'] :: documentCaptures (String.mk [])
    ∧ compileCaptures "COULD NOT COMPILE `x`" = []
    ∧ documentCaptures "could not document `x`" = [] :=
  c7_marker_scan 'c' ['x'] [] (Or.inr rfl) (by simp) (by decide)

/-- Helper: pushing a row into the bucket map adds exactly that row to the
multiset of all bucketed rows. -/
theorem addRow_flatten_perm (m : List (SuspectedCause × List Row))
    (cause : SuspectedCause) (row : Row) :
    List.Perm ((addRow m cause row).map Prod.snd).flatten
      ((m.map Prod.snd).flatten ++ [row]) := by
  induction m with
  | nil => simp [addRow]
  | cons p rest ih =>
    obtain ⟨c, rs⟩ := p
    by_cases hc : cause = c
    · simp only [addRow, if_pos hc, List.map_cons, List.flatten_cons]
      rw [List.append_assoc, List.append_assoc]
      exact List.Perm.append_left rs
        (@List.perm_append_comm _ [row] (List.map Prod.snd rest).flatten)
    · simp only [addRow, if_neg hc, List.map_cons, List.flatten_cons]
      rw [List.append_assoc]
      exact List.Perm.append_left rs ih

/-- Helper: the keys reachable after pushing a row. -/
theorem addRow_keys_mem (m : List (SuspectedCause × List Row))
    (cause : SuspectedCause) (row : Row) (x : SuspectedCause) :
    x ∈ (addRow m cause row).map Prod.fst ↔ x ∈ m.map Prod.fst ∨ x = cause := by
  induction m with
  | nil => simp [addRow]
  | cons p rest ih =>
    obtain ⟨c, rs⟩ := p
    by_cases hc : cause = c
    · subst hc
      simp only [addRow, if_pos, List.map_cons, List.mem_cons]
      tauto
    · simp only [addRow, if_neg hc, List.map_cons, List.mem_cons, ih]
      tauto

/-- Helper: pushing a row never duplicates a bucket key. -/
theorem addRow_keys_nodup (m : List (SuspectedCause × List Row))
    (cause : SuspectedCause) (row : Row)
    (h : (m.map Prod.fst).Nodup) : ((addRow m cause row).map Prod.fst).Nodup := by
  induction m with
  | nil => simp [addRow]
  | cons p rest ih =>
    obtain ⟨c, rs⟩ := p
    simp only [List.map_cons, List.nodup_cons] at h
    by_cases hc : cause = c
    · simp only [addRow, if_pos hc, List.map_cons, List.nodup_cons]
      exact ⟨h.1, h.2⟩
    · simp only [addRow, if_neg hc, List.map_cons, List.nodup_cons]
      refine ⟨?_, ih h.2⟩
      rw [addRow_keys_mem]
      rintro (hmem | rfl)
      · exact h.1 hmem
      · exact hc rfl

/-- Helper: the row built for a record keeps the record's identity. -/
theorem buildRow_id (lookup : String → Option (List String))
    (urls : CrateId → ToolchainType → String) (r : Regression) (row : Row)
    (h : buildRow lookup urls r = some row) : row.id = r.id := by
  unfold buildRow at h
  rcases ho : ownersOf lookup r.id with _ | o
  · rw [ho] at h
    exact absurd h (by simp)
  · rw [ho] at h
    simp only [Option.map_some', Option.some.injEq] at h
    rw [← h]

/-- Helper: the aggregation loop's invariant — the multiset of bucketed row
identities grows by exactly the processed record identities, and key
distinctness is preserved. -/
theorem buildRowsAux_spec (lookup : String → Option (List String))
    (urls : CrateId → ToolchainType → String) (records : List Regression) :
    ∀ (acc rows : List (SuspectedCause × List Row)),
      buildRowsAux lookup urls acc records = some rows →
      List.Perm ((rows.map Prod.snd).flatten.map Row.id)
        (((acc.map Prod.snd).flatten.map Row.id) ++ records.map Regression.id)
      ∧ ((acc.map Prod.fst).Nodup → (rows.map Prod.fst).Nodup) := by
  induction records with
  | nil =>
    intro acc rows h
    simp only [buildRowsAux, Option.some.injEq] at h
    subst h
    simp
  | cons r rs ih =>
    intro acc rows h
    simp only [buildRowsAux] at h
    rcases hc : classifyRecord r with _ | cause
    · rw [hc] at h
      exact absurd h (by simp)
    rw [hc] at h
    rcases hb : buildRow lookup urls r with _ | row
    · rw [hb] at h
      exact absurd h (by simp)
    rw [hb] at h
    obtain ⟨hperm, hnd⟩ := ih (addRow acc cause row) rows h
    refine ⟨?_, fun hacc => hnd (addRow_keys_nodup acc cause row hacc)⟩
    have hstep : List.Perm (((addRow acc cause row).map Prod.snd).flatten.map Row.id)
        (((acc.map Prod.snd).flatten.map Row.id) ++ [r.id]) := by
      have := (addRow_flatten_perm acc cause row).map Row.id
      rw [List.map_append] at this
      simp only [List.map_cons, List.map_nil] at this
      rw [buildRow_id lookup urls r row hb] at this
      exact this
    refine hperm.trans ?_
    refine (List.Perm.append_right (rs.map Regression.id) hstep).trans ?_
    rw [List.append_assoc]
    exact List.Perm.refl _

/-- C4: aggregation is a partition of the record set — when the aggregation
loop completes, the identities collected across all bucket lists are exactly
the ingested record identities (each exactly once: none dropped, none
duplicated), and no cause keys two buckets. -/
theorem c4_aggregation_partition (lookup : String → Option (List String))
    (urls : CrateId → ToolchainType → String) (records : List Regression)
    (rows : List (SuspectedCause × List Row))
    (h : buildRows lookup urls records = some rows) :
    List.Perm ((rows.map Prod.snd).flatten.map Row.id) (records.map Regression.id)
    ∧ (rows.map Prod.fst).Nodup := by
  obtain ⟨hp, hnd⟩ := buildRowsAux_spec lookup urls records [] rows h
  refine ⟨?_, hnd (by simp)⟩
  simpa using hp

/-- Witness for C4: one GitHub record classifies to `Unknown` and lands in a
single bucket holding exactly its row. -/
theorem c4_aggregation_partition_witness :
    List.Perm (([(SuspectedCause.Unknown, [rowGH])].map Prod.snd).flatten.map Row.id)
      ([regGH].map Regression.id)
    ∧ ([(SuspectedCause.Unknown, [rowGH])].map Prod.fst).Nodup :=
  c4_aggregation_partition lookupX urlsConst [regGH]
    [(SuspectedCause.Unknown, [rowGH])] rfl
